import Mathlib

/-!
Verification of the AKClientLib core attachment/lifecycle engine.

Shallow embedding of `src/core/ak-core.js` and the parts of
`src/core/ak-utils.js` and `src/ak-ui-elements.js` it relies on.

Modelling conventions:
* JS objects used as string-keyed maps (the `#ITEMS` tables) are association
  lists with first-match lookup; property assignment replaces the first
  binding or appends a fresh one.
* JS class objects (the values registered in the catalogs) are identified by
  natural numbers (`cid`); their mutable static `className` field lives in a
  per-state table `classNames` (absent entry = JS `null`).
* Object identity of behaviour instances is modelled by an allocation
  counter: `new akClass(...)` yields the current `nextInstance` value, which
  is then bumped.  Two resolve results are "the identical instance"
  (reference equality) iff they carry the same number.
* `AbortController` handles are likewise numbered by an allocation counter;
  `controller.abort()` and `dispatchEvent(new CustomEvent('destroy'))` are
  recorded in an append-only `trace` of `AKAction`s.
* `toLowerCase`/`toUpperCase` are modelled character-wise (ASCII case
  mapping), which is what Lean's `Char.toLower`/`Char.toUpper` implement.
* Errors (`throw namedError(msg, name)`) are `AKError.err name msg` in an
  `Except` result.
-/

/-- JS `namedError(aMessage, aName)` from ak-utils.js: an `Error` with a `name`
and a `message`. -/
inductive AKError where
  | err (name : String) (msg : String)
deriving DecidableEq, Repr

deriving instance DecidableEq for Except

/-- Failure of the plain `assert(cond)` helper (default message). -/
def plainAssert : AKError := AKError.err "AssertionFailure" "Assertion failure."

/-- Failure of `AKObject.AKAssert(cond)`.  `AKAssert` is
`AKObjectAssert.bind(this)` evaluated in the static initializer of
`AKObject`, so `this.className` is `AKObject.className = null`; `fmt`
stringifies it, giving the constant message `[null] - Assertion failure.`. -/
def akAssert : AKError := AKError.err "AssertionFailure" "[null] - Assertion failure."

/-- ASCII-wise `String.toLowerCase()`. -/
def lowerStr (s : String) : String := String.mk (s.data.map Char.toLower)

/-- ASCII-wise `String.toUpperCase()`. -/
def upperStr (s : String) : String := String.mk (s.data.map Char.toUpper)

/-- JS `sameText(aFirst, aSecond)` from ak-utils.js: case-insensitive string
equality via `toUpperCase`.  (Its `typeof` asserts always pass here because
the embedding only ever hands it strings.) -/
def sameText (a b : String) : Bool := upperStr a == upperStr b

/-- JS `matchText(aString, aValues)` from ak-utils.js: membership in a string
array up to `sameText`, scanning left to right. -/
def matchText (s : String) (vals : List String) : Bool :=
  vals.any (fun v => sameText s v)

/-- First occurrence of the two-character pattern `%s` in a character list,
as `(prefix, suffix)` around it — the `indexOf('%s')` / `spliceString` pair
used by `fmt` in ak-utils.js. -/
def splitFirstPct : List Char → Option (List Char × List Char)
  | [] => none
  | '%' :: 's' :: rest => some ([], rest)
  | c :: rest =>
    match splitFirstPct rest with
    | some (p, q) => some (c :: p, q)
    | none => none

/-- JS `fmt(aString, ...aValues)` from ak-utils.js.  The loop repeatedly
replaces the first `%s` (rescanning the whole string, so a substituted value
containing `%s` is itself substituted next) and throws the
`Not enough values` assertion when a `%s` remains with no values left;
leftover values are ignored. -/
def fmtRun : String → List String → Except AKError String
  | s, [] =>
    match splitFirstPct s.data with
    | some _ => .error (AKError.err "AssertionFailure" "Not enough values to format string.")
    | none => .ok s
  | s, v :: vt =>
    match splitFirstPct s.data with
    | none => .ok s
    | some (p, rest) => fmtRun (String.mk (p ++ v.data ++ rest)) vt

/-- Association-list lookup (first binding wins), modelling JS property
reads on the `#ITEMS` objects. -/
def alLookup {κ α : Type} [DecidableEq κ] : List (κ × α) → κ → Option α
  | [], _ => none
  | (k, v) :: rest, key => if k = key then some v else alLookup rest key

/-- Association-list update, modelling JS property assignment: overwrite the
first binding of the key, or append a fresh one. -/
def alSet {κ α : Type} [DecidableEq κ] : List (κ × α) → κ → α → List (κ × α)
  | [], key, v => [(key, v)]
  | (k, w) :: rest, key, v =>
    if k = key then (key, v) :: rest else (k, w) :: alSet rest key v

/-- Association-list deletion, modelling the JS `delete` operator. -/
def alRemove {κ α : Type} [DecidableEq κ] : List (κ × α) → κ → List (κ × α)
  | [], _ => []
  | (k, v) :: rest, key =>
    if k = key then alRemove rest key else (k, v) :: alRemove rest key

/-- A DOM element as far as the engine reads it: its `id` property and its
attribute map (`getAttribute` returns `null`, i.e. `none`, when absent).
Values of this type always satisfy the source's `isElement` test. -/
structure Element where
  id : String
  attrs : List (String × String)
deriving DecidableEq, Repr

/-- DOM `aElement.getAttribute(name)`. -/
def Element.getAttribute (el : Element) (name : String) : Option String :=
  alLookup el.attrs name

/-- Splitting of a character list at the space character, as JS `String.prototype.split(' ')`
behaves on a non-empty string (adjacent spaces yield empty tokens). -/
def splitSpace : List Char → List Char → List String
  | [], acc => [String.mk acc]
  | ' ' :: cs, acc => String.mk acc :: splitSpace cs []
  | c :: cs, acc => splitSpace cs (acc ++ [c])

/-- JS `listAttribute(aElement, aAttributeName)` from ak-utils.js (installed on
`Element.prototype` as `getListAttribute`): `[]` when the attribute is
absent or empty (both falsy), otherwise the value split by `' '`. -/
def listAttribute (el : Element) (attName : String) : List String :=
  match el.getAttribute attName with
  | none => []
  | some a => if a = "" then [] else splitSpace a.data []

/-- Which of the two built-in family roots a registered class descends from
(`AKUiElement`, `AKComponent`), or neither (a plain `AKObject` descendant).
This is the data behind `inheritsFrom` / the prototype chain; it is fixed
when the plugin author defines the class and never mutated by the engine. -/
inductive ClassKind where
  | uiElement
  | component
  | plainObject
deriving DecidableEq, Repr

/-- Observable side effects of the engine: the `destroy` `CustomEvent`
dispatched on a node (identified by its `id`) and `AbortController.abort()`
on a numbered controller. -/
inductive AKAction where
  | destroy (id : String)
  | abort (c : Nat)
deriving DecidableEq, Repr

/-- One `AKRegisteredObject` of `AKObjectRegistry.#ITEMS`: the per-identity
`instances` table (class name → instance) and the `controllers` array
(numbered `AbortController`s, in push order). -/
structure RegEntry where
  instances : List (String × Nat)
  controllers : List Nat
deriving DecidableEq, Repr

/-- DOM `aNode.nodeType` as far as `observeDestroy` tests it. -/
inductive NodeType where
  | element
  | text
  | comment
deriving DecidableEq, Repr

/-- A node appearing in a mutation record's `removedNodes`; `el` is its
element payload (only read when `nodeType` is `element`). -/
structure DomNode where
  nodeType : NodeType
  el : Element
deriving DecidableEq, Repr

/-- DOM `mutation.type` as far as `observeDestroy` tests it. -/
inductive MutationType where
  | childList
  | attributes
  | characterData
deriving DecidableEq, Repr

/-- One `MutationRecord` of a host-delivered batch. -/
structure MutationRecord where
  type : MutationType
  removedNodes : List DomNode
deriving DecidableEq, Repr

/-- The whole mutable state of the engine:
* `uiItems` / `compItems` — `AKUiClassesRegistry.#ITEMS` /
  `AKComponentRegistry.#ITEMS` (lowercased name → class);
* `classNames` — each class object's mutable static `className` field
  (absent = `null`);
* `kinds` — each class's family root (immutable, set at class definition;
  absent = plain `AKObject` descendant);
* `handlers` — the size of each class's static `_handlers` object
  (immutable; absent = the default empty `{}`);
* `registry` — `AKObjectRegistry.#ITEMS` (lowercased element id → entry);
* `nextInstance` / `nextController` — allocation counters for behaviour
  instances and `AbortController`s;
* `trace` — append-only record of dispatched `destroy` events and
  controller aborts. -/
structure AKState where
  uiItems : List (String × Nat)
  compItems : List (String × Nat)
  classNames : List (Nat × String)
  kinds : List (Nat × ClassKind)
  handlers : List (Nat × Nat)
  registry : List (String × RegEntry)
  nextInstance : Nat
  nextController : Nat
  trace : List AKAction
deriving DecidableEq, Repr

/-- Family root of a class (see `ClassKind`). -/
def kindOf (s : AKState) (cid : Nat) : ClassKind :=
  (alLookup s.kinds cid).getD ClassKind.plainObject

/-- Size of a class's `_handlers` object (`{}`, i.e. `0`, by default). -/
def handlerCount (s : AKState) (cid : Nat) : Nat :=
  (alLookup s.handlers cid).getD 0

/-- Catalog `find(aClassName)` of either catalog class: `null` for a non-string or
empty argument, otherwise `#ITEMS[aClassName.toLowerCase()] ?? null`.
(`AKUiClassesRegistry` and `AKComponentRegistry` are textually identical up
to the class name baked into `get`'s error message, so the catalog API is
embedded once, parametrised by the `#ITEMS` table and that name.) -/
def catFind (items : List (String × Nat)) (name : String) : Option Nat :=
  if name = "" then none else alLookup items (lowerStr name)

/-- Catalog `register(aClassName, aClass)` of either catalog: asserts the name is a
non-empty string; a silent no-op when `find` already succeeds (first
registration wins); otherwise stores the class under the lowercased name and
assigns the canonical `aClass.className = aClassName`. -/
def catRegister (items : List (String × Nat)) (classNames : List (Nat × String))
    (name : String) (cid : Nat) :
    Except AKError (List (String × Nat) × List (Nat × String)) :=
  if name = "" then .error plainAssert
  else if (catFind items name).isSome then .ok (items, classNames)
  else .ok (alSet items (lowerStr name) cid, alSet classNames cid name)

/-- Catalog `unregister(aClassName)` of either catalog: no-op on a non-string or
empty name, otherwise deletes the lowercased key (safe when absent). -/
def catUnregister (items : List (String × Nat)) (name : String) : List (String × Nat) :=
  if name = "" then items else alRemove items (lowerStr name)

/-- Catalog `get(aClassName)` of either catalog (`regName` is the class name baked
into the message): `assertFmt(result, '[…] Class "%s" not found.', name)`
formats its message before testing the condition, so `fmt`'s own failure
(a name containing `%s`) pre-empts both outcomes; otherwise the found class
is returned, or the formatted `AssertionFailure` is thrown. -/
def catGetNamed (regName : String) (items : List (String × Nat)) (name : String) :
    Except AKError Nat :=
  match fmtRun ("[" ++ regName ++ "] Class \"%s\" not found.") [name] with
  | .error e => .error e
  | .ok msg =>
    match catFind items name with
    | some c => .ok c
    | none => .error (AKError.err "AssertionFailure" msg)

/-- Catalog `contains(aClassName)` of either catalog, string branch:
`Object.hasOwn(this.#ITEMS, aClassName)` — note: no `toLowerCase`. -/
def catContainsOne (items : List (String × Nat)) (name : String) : Bool :=
  (alLookup items name).isSome

/-- Catalog `contains(aClassName)` of either catalog, array branch: `false` as soon
as one name is not an own key of `#ITEMS` (again without `toLowerCase`). -/
def catContainsMany (items : List (String × Nat)) : List String → Bool
  | [] => true
  | n :: ns =>
    if (alLookup items n).isSome then catContainsMany items ns else false

/-- The property key under which an instance is stored:
`instances[aClass.className]`.  A `null` class name coerces to the property
string `"null"` in JS. -/
def keyStr : Option String → String
  | some s => s
  | none => "null"

/-- Registry `AKObjectRegistry.has(aId, aClass)` / the lookup inside `getAKObject`:
the instance registered under `(aId, aClass.className)`, if any. -/
def memoAt (s : AKState) (id key : String) : Option Nat :=
  match alLookup s.registry id with
  | some e => alLookup e.instances key
  | none => none

/-- The class-resolution prologue of `AKObjectManager.get` (ak-core.js
396–407).  `akClass` starts `null`; a first `if` resolves against the
component catalog when `sameText(aClassName, el.getAttribute('ak-component-class') ?? '')`;
a second `if` (not an `else if`!) resolves against the UI catalog when the
name appears in `ak-ui-classes`, overwriting the first result; both
resolutions go through the throwing `get`.  A still-`null` class becomes the
`AKInvalidTypecast` error naming the class and the element id. -/
def resolveCid (s : AKState) (el : Element) (name : String) : Except AKError Nat :=
  let a1 : Except AKError (Option Nat) :=
    if sameText name ((el.getAttribute "ak-component-class").getD "") then
      match catGetNamed "AKComponentRegistry" s.compItems name with
      | .ok c => .ok (some c)
      | .error e => .error e
    else .ok none
  match a1 with
  | .error e => .error e
  | .ok a1v =>
    let a2 : Except AKError (Option Nat) :=
      if matchText name (listAttribute el "ak-ui-classes") then
        match catGetNamed "AKUiClassesRegistry" s.uiItems name with
        | .ok c => .ok (some c)
        | .error e => .error e
      else .ok a1v
    match a2 with
    | .error e => .error e
    | .ok (some c) => .ok c
    | .ok none =>
      match fmtRun "Invalid AKObject class %s for element %s." [name, el.id] with
      | .ok msg => .error (AKError.err "AKInvalidTypecast" msg)
      | .error e => .error e

/-- Construction `new akClass(aElement)`: the `AKObject` constructor asserts the class
carries a (truthy) `className`, then `_validateElement` asserts the argument
is an element (always true here) with a truthy `id`, plus the per-family
check — `AKUiElement` requires `matchText(className, ak-ui-classes)`,
`AKComponent` requires `sameText(className, ak-component-class)` (whose
`typeof` assert throws the plain assertion when the attribute is `null`). -/
def constructInstance (s : AKState) (cid : Nat) (el : Element) : Except AKError Unit :=
  match alLookup s.classNames cid with
  | none => .error akAssert
  | some cn =>
    if cn = "" then .error akAssert
    else if el.id = "" then .error akAssert
    else
      match kindOf s cid with
      | ClassKind.uiElement =>
        if matchText cn (listAttribute el "ak-ui-classes") then .ok () else .error akAssert
      | ClassKind.component =>
        match el.getAttribute "ak-component-class" with
        | none => .error plainAssert
        | some a => if sameText cn a then .ok () else .error akAssert
      | ClassKind.plainObject => .ok ()

/-- Registry `AKObjectRegistry.addListenerController(aId)` (reached through
`AKObjectManager.listenerAdded`): asserts the entry exists, then pushes a
fresh `AbortController` and hands back its signal. -/
def listenerAdded (s : AKState) (id : String) : Except AKError AKState :=
  match alLookup s.registry id with
  | none => .error plainAssert
  | some e =>
    .ok { s with
          registry := alSet s.registry id
            { e with controllers := e.controllers ++ [s.nextController] },
          nextController := s.nextController + 1 }

/-- The `iterateObject(this._handlers, …)` loop of
`AKUiElement._applyClass`: one `addEventListener(…, { signal: listenerAdded(el) })`
per handler, i.e. `n` fresh controllers pushed onto the node's entry.  (The
`classList` changes of `_applyClass` / `setCSSFromAttributes` are
presentation-only writes to the DOM node and are not part of the engine
state modelled here.) -/
def addListeners (s : AKState) (id : String) : Nat → Except AKError AKState
  | 0 => .ok s
  | n + 1 =>
    match listenerAdded s id with
    | .error e => .error e
    | .ok s' => addListeners s' id n

/-- Resolver `AKObjectManager.get(aElement, aClassName)` — the find-or-create
resolver (ak-core.js 396–412).  After the preconditions and class
resolution (`resolveCid`), the instance memoized under the lowercased id and
the class's current `className` is returned if present (`has` /
`getAKObject`); otherwise a new instance is constructed
(`constructInstance`), registered (`AKObjectRegistry.register`, including
its `isEmpty` entry creation and the not-yet-registered assert), and
initialized (`init` → `_applyClass` → the listener loop for `AKUiElement`
descendants, `_afterInitialization` being the default no-op).  The id
non-emptiness assert of `has`/`register` is the single `id = ""` guard. -/
def akGet (s : AKState) (el : Element) (name : String) : Except AKError (AKState × Nat) :=
  if el.id = "" then .error plainAssert
  else if name = "" then .error plainAssert
  else
    match resolveCid s el name with
    | .error e => .error e
    | .ok cid =>
      let id := lowerStr el.id
      let key := keyStr (alLookup s.classNames cid)
      if id = "" then .error plainAssert
      else
        match memoAt s id key with
        | some inst => .ok (s, inst)
        | none =>
          match constructInstance s cid el with
          | .error e => .error e
          | .ok _ =>
            let inst := s.nextInstance
            let entry := (alLookup s.registry id).getD ⟨[], []⟩
            if (alLookup entry.instances key).isSome then .error plainAssert
            else
              let s1 := { s with
                registry := alSet s.registry id
                  { entry with instances := alSet entry.instances key inst },
                nextInstance := s.nextInstance + 1 }
              match addListeners s1 id
                  (match kindOf s cid with
                   | ClassKind.uiElement => handlerCount s cid
                   | _ => 0) with
              | .error e => .error e
              | .ok s2 => .ok (s2, inst)

/-- Registry `AKObjectRegistry.unregister(aId)`: a no-op when the id has no entry;
otherwise aborts every controller of the entry (in array order) and deletes
the entry. -/
def regUnregister (s : AKState) (id : String) : AKState :=
  match alLookup s.registry id with
  | none => s
  | some e =>
    { s with
      trace := s.trace ++ e.controllers.map AKAction.abort,
      registry := alRemove s.registry id }

/-- Detach `AKObjectManager.delete(aElement)`: unregister the lowercased id. -/
def akDelete (s : AKState) (el : Element) : AKState :=
  regUnregister s (lowerStr el.id)

/-- Processing of one removed node inside `observeDestroy`
(ak-ui-elements.js): element-type nodes get a `destroy` `CustomEvent`
dispatched on them and are then deleted from the manager; all other node
types are skipped. -/
def destroyNode (s : AKState) (n : DomNode) : AKState :=
  if n.nodeType = NodeType.element then
    akDelete { s with trace := s.trace ++ [AKAction.destroy n.el.id] } n.el
  else s

/-- Processing of one `MutationRecord`: only `childList` records are acted
on, folding `destroyNode` over their `removedNodes`. -/
def processRecord (s : AKState) (m : MutationRecord) : AKState :=
  if m.type = MutationType.childList then
    m.removedNodes.foldl destroyNode s
  else s

/-- JS `observeDestroy(aMutationList, aObserver)` — the teardown pipeline's
mutation callback, folded over one host-delivered batch. -/
def observeDestroy (s : AKState) (muts : List MutationRecord) : AKState :=
  muts.foldl processRecord s

/-- The token scan of `AKUiElement.is(aElement)` over the `ak-ui-classes`
list: the first token whose `find` yields a class that `inheritsFrom` the
family root `AKUiElement` (`is` is invoked statically on the root inside
`parent`). -/
def akUiIsAux (s : AKState) : List String → Option Nat
  | [] => none
  | t :: ts =>
    match catFind s.uiItems t with
    | some c =>
      if kindOf s c = ClassKind.uiElement then some c else akUiIsAux s ts
    | none => akUiIsAux s ts

/-- Static `AKUiElement.is(aElement)`. -/
def akUiIs (s : AKState) (el : Element) : Option Nat :=
  akUiIsAux s (listAttribute el "ak-ui-classes")

/-- The `AKUiElement.parent` getter, as a walk over the `parentElement`
chain (immediate parent first): the first ancestor `AKUiElement.is`
recognises is resolved through `AKObjectManager.get` with the found class's
`className` (a `null` className is passed through and rejected by `get`'s
non-empty-string assert, modelled by the `""` default); running out of
ancestors yields `null`.  (`AKComponent.parent` is the textually parallel
walk over the component family.) -/
def akUiParent (s : AKState) : List Element → Except AKError (AKState × Option Nat)
  | [] => .ok (s, none)
  | a :: rest =>
    match akUiIs s a with
    | some c =>
      match akGet s a ((alLookup s.classNames c).getD "") with
      | .error e => .error e
      | .ok (s', i) => .ok (s', some i)
    | none => akUiParent s rest

/-- The class-side fields (both catalogs, the class-name table, the family
and handler tables) are untouched. -/
def catalogsEq (s s' : AKState) : Prop :=
  s'.uiItems = s.uiItems ∧ s'.compItems = s.compItems ∧ s'.classNames = s.classNames ∧
  s'.kinds = s.kinds ∧ s'.handlers = s.handlers

/-! Concrete fixtures used by witnesses and counterexamples. -/

/-- A UI class `Tab` (two event handlers) registered in the UI catalog. -/
def exS1 : AKState :=
  { uiItems := [("tab", 1)], compItems := [], classNames := [(1, "Tab")],
    kinds := [(1, ClassKind.uiElement)], handlers := [(1, 2)],
    registry := [], nextInstance := 0, nextController := 0, trace := [] }

/-- An element declaring `ak-ui-classes="Tab"`. -/
def exEl1 : Element := { id := "N1", attrs := [("ak-ui-classes", "Tab")] }

/-- State `exS1` after the first `resolve(exEl1, "Tab")`: one instance memoized
under `("n1", "Tab")`, two listener controllers pushed. -/
def exS1r : AKState :=
  { uiItems := [("tab", 1)], compItems := [], classNames := [(1, "Tab")],
    kinds := [(1, ClassKind.uiElement)], handlers := [(1, 2)],
    registry := [("n1", ⟨[("Tab", 0)], [0, 1]⟩)],
    nextInstance := 1, nextController := 2, trace := [] }

/-- Two UI classes attached to node `n1` (instances 0 and 1) with three live
subscription controllers — the spec's cleanup-completeness scenario. -/
def exS2 : AKState :=
  { uiItems := [("tab", 1), ("pane", 2)], compItems := [],
    classNames := [(1, "Tab"), (2, "Pane")],
    kinds := [(1, ClassKind.uiElement), (2, ClassKind.uiElement)], handlers := [],
    registry := [("n1", ⟨[("Tab", 0), ("Pane", 1)], [0, 1, 2]⟩)],
    nextInstance := 2, nextController := 3, trace := [] }

/-- The removed element node of the `exS2` scenario. -/
def exN2 : DomNode := ⟨NodeType.element, { id := "N1", attrs := [("ak-ui-classes", "Tab Pane")] }⟩

/-- A mutation record of type `childList` removing `exN2`. -/
def exRec2 : MutationRecord := ⟨MutationType.childList, [exN2]⟩

/-- A one-record mutation batch removing `exN2`. -/
def exMuts2 : List MutationRecord := [exRec2]

/-- The name `Foo` registered in *both* catalogs: class 1 (an `AKComponent`
descendant, canonical `className` `"FOO"`) in the component catalog and
class 2 (an `AKUiElement` descendant, canonical `className` `"Foo"`) in the
UI catalog. -/
def exS3 : AKState :=
  { uiItems := [("foo", 2)], compItems := [("foo", 1)],
    classNames := [(1, "FOO"), (2, "Foo")],
    kinds := [(1, ClassKind.component), (2, ClassKind.uiElement)], handlers := [],
    registry := [], nextInstance := 0, nextController := 0, trace := [] }

/-- An element declaring the same name in both attributes. -/
def exEl3 : Element :=
  { id := "e1", attrs := [("ak-component-class", "Foo"), ("ak-ui-classes", "Foo")] }

/-- Empty catalogs. -/
def exS4 : AKState :=
  { uiItems := [], compItems := [], classNames := [], kinds := [], handlers := [],
    registry := [], nextInstance := 0, nextController := 0, trace := [] }

/-- An element declaring `ak-ui-classes="Foo"` (with `Foo` nowhere
registered, for the C4 counterexample). -/
def exEl4 : Element := { id := "e4", attrs := [("ak-ui-classes", "Foo")] }

/-- A node with exclusive-interaction attribute `Foo` (identity `e1`), used
to request the undeclared name `Bar`. -/
def exEl4b : Element := { id := "e1", attrs := [("ak-component-class", "Foo")] }

/-- A node registered with one live subscription controller (number 5). -/
def exS5 : AKState :=
  { uiItems := [("tab", 1)], compItems := [], classNames := [(1, "Tab")],
    kinds := [(1, ClassKind.uiElement)], handlers := [],
    registry := [("n1", ⟨[("Tab", 0)], [5]⟩)],
    nextInstance := 1, nextController := 6, trace := [] }

/-- The element whose identity is registered in `exS5`. -/
def exEl5 : Element := { id := "n1", attrs := [("ak-ui-classes", "Tab")] }

/-- The `Panel` and `Tab` UI classes; node `a` (typed `Panel`) already carries
its resolved instance 0 — the parent-resolution scenario. -/
def exS9 : AKState :=
  { uiItems := [("panel", 1), ("tab", 2)], compItems := [],
    classNames := [(1, "Panel"), (2, "Tab")],
    kinds := [(1, ClassKind.uiElement), (2, ClassKind.uiElement)], handlers := [],
    registry := [("a", ⟨[("Panel", 0)], []⟩)],
    nextInstance := 1, nextController := 0, trace := [] }

/-- Node A, typed `Panel`. -/
def exElA : Element := { id := "a", attrs := [("ak-ui-classes", "Panel")] }

/-- Node B, untyped. -/
def exElB : Element := { id := "b", attrs := [] }

/-- One class (1) registered in the UI catalog under the two names `Foo`
and then `Bar`, so its canonical `className` was overwritten to `"Bar"`. -/
def exS10 : AKState :=
  { uiItems := [("foo", 1), ("bar", 1)], compItems := [], classNames := [(1, "Bar")],
    kinds := [(1, ClassKind.uiElement)], handlers := [],
    registry := [], nextInstance := 0, nextController := 0, trace := [] }

/-- An element declaring both names of class 1. -/
def exEl10 : Element := { id := "e", attrs := [("ak-ui-classes", "Foo Bar")] }

/-- State `exS10` after `resolve(exEl10, "Foo")`: the instance is keyed by the
class's *current* canonical name `Bar`, not by the requested name. -/
def exS10r : AKState :=
  { uiItems := [("foo", 1), ("bar", 1)], compItems := [], classNames := [(1, "Bar")],
    kinds := [(1, ClassKind.uiElement)], handlers := [],
    registry := [("e", ⟨[("Bar", 0)], []⟩)],
    nextInstance := 1, nextController := 0, trace := [] }

/-! Helper lemmas. -/

theorem alLookup_alSet_self {κ α : Type} [DecidableEq κ] (l : List (κ × α)) (k : κ) (v : α) :
    alLookup (alSet l k v) k = some v := by
  induction l with
  | nil => simp [alSet, alLookup]
  | cons h t ih =>
    obtain ⟨k', v'⟩ := h
    by_cases hk : k' = k <;> simp [alSet, alLookup, hk, ih]

theorem alLookup_alSet_ne {κ α : Type} [DecidableEq κ] (l : List (κ × α)) (k k' : κ) (v : α)
    (h : k' ≠ k) : alLookup (alSet l k v) k' = alLookup l k' := by
  induction l with
  | nil => simp [alSet, alLookup, Ne.symm h]
  | cons hd t ih =>
    obtain ⟨k₀, v₀⟩ := hd
    by_cases hk : k₀ = k
    · subst hk
      simp [alSet, alLookup, fun hh => h hh, Ne.symm h]
    · simp [alSet, alLookup, hk, ih]

theorem alLookup_alRemove_self {κ α : Type} [DecidableEq κ] (l : List (κ × α)) (k : κ) :
    alLookup (alRemove l k) k = none := by
  induction l with
  | nil => simp [alRemove, alLookup]
  | cons hd t ih =>
    obtain ⟨k₀, v₀⟩ := hd
    by_cases hk : k₀ = k <;> simp [alRemove, alLookup, hk, ih]

theorem alLookup_alRemove_ne {κ α : Type} [DecidableEq κ] (l : List (κ × α)) (k k' : κ)
    (h : k' ≠ k) : alLookup (alRemove l k) k' = alLookup l k' := by
  induction l with
  | nil => simp [alRemove, alLookup]
  | cons hd t ih =>
    obtain ⟨k₀, v₀⟩ := hd
    by_cases hk : k₀ = k
    · subst hk
      simp [alRemove, alLookup, Ne.symm h, ih]
    · simp [alRemove, alLookup, hk, ih]

theorem lowerStr_ne_empty {s : String} (h : s ≠ "") : lowerStr s ≠ "" := by
  intro hc
  apply h
  have hdata : s.data.map Char.toLower = [] := congrArg String.data hc
  exact String.ext (List.map_eq_nil_iff.mp hdata)

/-- Class resolution only reads the two catalogs. -/
theorem resolveCid_congr (s s' : AKState) (el : Element) (name : String)
    (h1 : s'.uiItems = s.uiItems) (h2 : s'.compItems = s.compItems) :
    resolveCid s' el name = resolveCid s el name := by
  simp only [resolveCid, h1, h2]

theorem listenerAdded_inv (s s' : AKState) (id : String)
    (h : listenerAdded s id = .ok s') :
    catalogsEq s s' ∧ s'.nextInstance = s.nextInstance ∧
      (∀ id' k, memoAt s' id' k = memoAt s id' k) ∧
      (∀ id', (alLookup s'.registry id').isSome = (alLookup s.registry id').isSome) := by
  unfold listenerAdded at h
  split at h
  · cases h
  · next e he =>
    cases h
    refine ⟨⟨rfl, rfl, rfl, rfl, rfl⟩, rfl, ?_, ?_⟩
    · intro id' k
      unfold memoAt
      by_cases hid : id' = id
      · subst hid
        simp only [alLookup_alSet_self, he]
      · simp only [alLookup_alSet_ne _ _ _ _ hid]
    · intro id'
      by_cases hid : id' = id
      · subst hid
        simp only [alLookup_alSet_self, he, Option.isSome_some]
      · simp only [alLookup_alSet_ne _ _ _ _ hid]

theorem addListeners_inv (n : Nat) :
    ∀ s s' : AKState, ∀ id : String, addListeners s id n = .ok s' →
    catalogsEq s s' ∧ s'.nextInstance = s.nextInstance ∧
      (∀ id' k, memoAt s' id' k = memoAt s id' k) := by
  induction n with
  | zero =>
    intro s s' id h
    cases h
    exact ⟨⟨rfl, rfl, rfl, rfl, rfl⟩, rfl, fun _ _ => rfl⟩
  | succ n ih =>
    intro s s' id h
    unfold addListeners at h
    split at h
    · cases h
    · next s₀ hla =>
      obtain ⟨⟨c1, c2, c3, c4, c5⟩, hni, hmm⟩ := ih s₀ s' id h
      obtain ⟨⟨d1, d2, d3, d4, d5⟩, hni', hmm', _⟩ := listenerAdded_inv s s₀ id hla
      exact ⟨⟨c1.trans d1, c2.trans d2, c3.trans d3, c4.trans d4, c5.trans d5⟩,
        hni.trans hni',
        fun id' k => (hmm id' k).trans (hmm' id' k)⟩

/-- Forward inversion of a successful `AKObjectManager.get`: the class-side
state is untouched, the preconditions held, the class resolved, and the
returned instance is memoized in the result state under the lowercased id
and the class's `className` key. -/
theorem akGet_ok_inv (s s₁ : AKState) (el : Element) (name : String) (i : Nat)
    (h : akGet s el name = .ok (s₁, i)) :
    catalogsEq s s₁ ∧ el.id ≠ "" ∧ name ≠ "" ∧
      ∃ cid, resolveCid s el name = .ok cid ∧
        memoAt s₁ (lowerStr el.id) (keyStr (alLookup s.classNames cid)) = some i := by
  unfold akGet at h
  split at h
  · cases h
  next hid =>
  split at h
  · cases h
  next hn =>
  split at h
  · cases h
  next cid hres =>
  simp only [if_neg (lowerStr_ne_empty hid)] at h
  split at h
  · -- memo hit: state unchanged
    next inst hmemo =>
    cases h
    exact ⟨⟨rfl, rfl, rfl, rfl, rfl⟩, hid, hn, cid, hres, hmemo⟩
  · -- miss: construct, register, init
    next hmemo =>
    split at h
    · cases h
    split at h
    · cases h
    split at h
    · cases h
    · next s₂ hadd =>
      cases h
      obtain ⟨⟨c1, c2, c3, c4, c5⟩, _, hmm⟩ := addListeners_inv _ _ _ _ hadd
      refine ⟨⟨c1, c2, c3, c4, c5⟩, hid, hn, cid, hres, ?_⟩
      rw [hmm]
      unfold memoAt
      simp only [alLookup_alSet_self]

/-- A resolve whose `(identity, className)` pair is already memoized returns
the memoized instance and leaves the state untouched. -/
theorem akGet_hit (s : AKState) (el : Element) (name : String) (cid i : Nat)
    (hid : el.id ≠ "") (hn : name ≠ "")
    (hres : resolveCid s el name = .ok cid)
    (hmemo : memoAt s (lowerStr el.id) (keyStr (alLookup s.classNames cid)) = some i) :
    akGet s el name = .ok (s, i) := by
  unfold akGet
  rw [if_neg hid, if_neg hn, hres]
  simp only [if_neg (lowerStr_ne_empty hid), hmemo]

/-- A successful resolve against an identity with no registry entry takes
the construction branch: the returned instance is the freshly allocated
`nextInstance`. -/
theorem akGet_fresh (s s₁ : AKState) (el : Element) (name : String) (i : Nat)
    (hreg : alLookup s.registry (lowerStr el.id) = none)
    (h : akGet s el name = .ok (s₁, i)) :
    i = s.nextInstance ∧ s₁.nextInstance = s.nextInstance + 1 := by
  unfold akGet at h
  split at h
  · cases h
  next hid =>
  split at h
  · cases h
  split at h
  · cases h
  next cid hres =>
  simp only [if_neg (lowerStr_ne_empty hid)] at h
  split at h
  · next inst hmemo =>
    rw [memoAt, hreg] at hmemo
    cases hmemo
  · split at h
    · cases h
    split at h
    · cases h
    split at h
    · cases h
    · next s₂ hadd =>
      cases h
      obtain ⟨_, hni, _⟩ := addListeners_inv _ _ _ _ hadd
      exact ⟨rfl, by simp [hni]⟩

/-- A successful resolve whose `(identity, className)` pair is not yet
memoized constructs: the returned instance is the fresh `nextInstance`. -/
theorem akGet_miss_fresh (s s₁ : AKState) (el : Element) (name : String) (i cid : Nat)
    (hres : resolveCid s el name = .ok cid)
    (hmiss : memoAt s (lowerStr el.id) (keyStr (alLookup s.classNames cid)) = none)
    (h : akGet s el name = .ok (s₁, i)) :
    i = s.nextInstance := by
  unfold akGet at h
  split at h
  · cases h
  next hid =>
  split at h
  · cases h
  rw [hres] at h
  simp only [if_neg (lowerStr_ne_empty hid), hmiss] at h
  split at h
  · cases h
  split at h
  · cases h
  split at h
  · cases h
  · cases h
    rfl

/-! The claims. -/

/-- Claim C1 — For every element carrying a non-empty identity and every type
name T declared on it, two successive calls to resolve
(`AKObjectManager.get`) with that element and T return the identical
instance (reference equality): the first call constructs, registers under
(lowercased identity, canonical type name), and initializes a new instance,
and every later call with the same pair returns that memoized instance
without constructing again.

Formally: whenever a resolve succeeds with state `s₁` and instance `i`, an
immediate second resolve with the same element and name returns exactly
`(s₁, i)` — the same instance by allocation identity, with no state change
(hence no construction); and when the first call starts from a state where
the pair `(lowercased id, className of the resolved class)` is unmemoized,
that first call allocated the fresh instance `s.nextInstance` and left it
registered under that pair. -/
theorem C1_resolve_memoized (s s₁ : AKState) (el : Element) (name : String) (i : Nat)
    (h : akGet s el name = .ok (s₁, i)) :
    akGet s₁ el name = .ok (s₁, i) ∧
    (∀ cid, resolveCid s el name = .ok cid →
      memoAt s (lowerStr el.id) (keyStr (alLookup s.classNames cid)) = none →
      i = s.nextInstance ∧
        memoAt s₁ (lowerStr el.id) (keyStr (alLookup s.classNames cid)) = some i) := by
  obtain ⟨⟨c1, c2, c3, c4, c5⟩, hid, hn, cid, hres, hmemo⟩ := akGet_ok_inv s s₁ el name i h
  constructor
  · have hres' : resolveCid s₁ el name = .ok cid :=
      (resolveCid_congr s s₁ el name c1 c2).trans hres
    refine akGet_hit s₁ el name cid i hid hn hres' ?_
    rw [c3]
    exact hmemo
  · intro cid' hres2 hmiss
    have hcid : cid' = cid := by
      rw [hres] at hres2
      exact (Except.ok.inj hres2).symm
    subst hcid
    exact ⟨akGet_miss_fresh s s₁ el name i cid' hres2 hmiss h, hmemo⟩

/-- Witness for C1: on the `Tab` fixture the first resolve constructs
instance 0 and the second resolve returns the identical instance 0 with the
state unchanged. -/
theorem C1_witness :
    akGet exS1 exEl1 "Tab" = .ok (exS1r, 0) ∧ akGet exS1r exEl1 "Tab" = .ok (exS1r, 0) :=
  ⟨by decide, (C1_resolve_memoized exS1 exS1r exEl1 "Tab" 0 (by decide)).1⟩

/-! Teardown-pipeline invariants. -/

/-- How the state evolves under teardown processing: the trace only grows,
registry entries are only deleted (never added or modified), every entry
that disappears had all its controllers aborted into the trace, and the
class-side fields and instance counter are untouched. -/
def Teardown (s0 s : AKState) : Prop :=
  (∃ t, s.trace = s0.trace ++ t) ∧
  (∀ id, alLookup s.registry id = none ∨ alLookup s.registry id = alLookup s0.registry id) ∧
  (∀ id e, alLookup s0.registry id = some e →
    alLookup s.registry id = some e ∨ ∀ c ∈ e.controllers, AKAction.abort c ∈ s.trace) ∧
  catalogsEq s0 s ∧ s.nextInstance = s0.nextInstance

theorem teardown_refl (s : AKState) : Teardown s s :=
  ⟨⟨[], by simp⟩, fun _ => Or.inr rfl, fun _ _ h => Or.inl h, ⟨rfl, rfl, rfl, rfl, rfl⟩, rfl⟩

theorem teardown_trans {s0 s1 s2 : AKState} (h01 : Teardown s0 s1) (h12 : Teardown s1 s2) :
    Teardown s0 s2 := by
  obtain ⟨⟨t1, ht1⟩, hr1, he1, ⟨a1, a2, a3, a4, a5⟩, hn1⟩ := h01
  obtain ⟨⟨t2, ht2⟩, hr2, he2, ⟨b1, b2, b3, b4, b5⟩, hn2⟩ := h12
  refine ⟨⟨t1 ++ t2, by rw [ht2, ht1, List.append_assoc]⟩, ?_, ?_,
    ⟨b1.trans a1, b2.trans a2, b3.trans a3, b4.trans a4, b5.trans a5⟩, hn2.trans hn1⟩
  · intro id
    rcases hr2 id with h | h
    · exact Or.inl h
    · rw [h]
      exact hr1 id
  · intro id e h0
    rcases he1 id e h0 with h1 | h1
    · exact he2 id e h1
    · refine Or.inr fun c hc => ?_
      rw [ht2]
      exact List.mem_append_left _ (h1 c hc)

theorem trace_append_teardown (s : AKState) (t : List AKAction) :
    Teardown s { s with trace := s.trace ++ t } :=
  ⟨⟨t, rfl⟩, fun _ => Or.inr rfl, fun _ _ h => Or.inl h, ⟨rfl, rfl, rfl, rfl, rfl⟩, rfl⟩

theorem regUnregister_teardown (s : AKState) (id : String) :
    Teardown s (regUnregister s id) := by
  unfold regUnregister
  split
  · exact teardown_refl s
  · next e he =>
    refine ⟨⟨e.controllers.map AKAction.abort, rfl⟩, ?_, ?_, ⟨rfl, rfl, rfl, rfl, rfl⟩, rfl⟩
    · intro id'
      by_cases hid : id' = id
      · subst hid
        exact Or.inl (alLookup_alRemove_self _ _)
      · exact Or.inr (alLookup_alRemove_ne _ _ _ hid)
    · intro id' e' h0
      by_cases hid : id' = id
      · subst hid
        rw [he] at h0
        cases h0
        exact Or.inr fun c hc => List.mem_append_right _ (List.mem_map_of_mem _ hc)
      · refine Or.inl ?_
        rw [alLookup_alRemove_ne _ _ _ hid]
        exact h0

theorem destroyNode_teardown (s : AKState) (n : DomNode) : Teardown s (destroyNode s n) := by
  unfold destroyNode
  split
  · exact teardown_trans (trace_append_teardown s [AKAction.destroy n.el.id])
      (regUnregister_teardown _ _)
  · exact teardown_refl s

theorem foldl_destroyNode_teardown (l : List DomNode) :
    ∀ s : AKState, Teardown s (List.foldl destroyNode s l) := by
  induction l with
  | nil => exact fun s => teardown_refl s
  | cons n t ih =>
    exact fun s => teardown_trans (destroyNode_teardown s n) (ih (destroyNode s n))

theorem processRecord_teardown (s : AKState) (m : MutationRecord) :
    Teardown s (processRecord s m) := by
  unfold processRecord
  split
  · exact foldl_destroyNode_teardown _ s
  · exact teardown_refl s

theorem foldl_processRecord_teardown (l : List MutationRecord) :
    ∀ s : AKState, Teardown s (List.foldl processRecord s l) := by
  induction l with
  | nil => exact fun s => teardown_refl s
  | cons m t ih =>
    exact fun s => teardown_trans (processRecord_teardown s m) (ih (processRecord s m))

/-- What processing one removed element node does: the `destroy` dispatch is
in the trace, the node's registry entry is gone, and every controller the
entry held was aborted. -/
theorem destroyNode_element (s : AKState) (n : DomNode) (he : n.nodeType = NodeType.element) :
    AKAction.destroy n.el.id ∈ (destroyNode s n).trace ∧
    alLookup (destroyNode s n).registry (lowerStr n.el.id) = none ∧
    (∀ e, alLookup s.registry (lowerStr n.el.id) = some e →
      ∀ c ∈ e.controllers, AKAction.abort c ∈ (destroyNode s n).trace) := by
  unfold destroyNode
  rw [if_pos he]
  unfold akDelete regUnregister
  split
  · next hnone =>
    refine ⟨List.mem_append_right _ (by simp), hnone, ?_⟩
    intro e h0 c hc
    rw [h0] at hnone
    cases hnone
  · next e he' =>
    refine ⟨List.mem_append_left _ (List.mem_append_right _ (by simp)),
      alLookup_alRemove_self _ _, ?_⟩
    intro e' h0 c hc
    rw [h0] at he'
    cases he'
    exact List.mem_append_right _ (List.mem_map_of_mem _ hc)

/-- Claim C2 — For every mutation batch processed by the teardown pipeline,
for every record describing child removal, and for every removed node that
is an element-type node (text and other non-element nodes are skipped), the
pipeline dispatches a `destroy` notification directly on that node, cancels
every cancellation handle in that node's subscription set, and purges the
node's registry entry via detach, so that a subsequent resolve for that
identity and type constructs a brand-new instance; this holds for every
node removed from the tree.

Formally, after `observeDestroy` runs on the batch: the `destroy` dispatch
on the node is in the trace; the registry has no entry for the node's
lowercased identity; every controller the identity's entry held before the
batch has its abort in the trace; and any subsequent successful resolve for
that identity (any element carrying it, any type name) allocates the fresh
`nextInstance` — i.e. constructs rather than returning a memoized
instance. -/
theorem C2_removal_cleanup (s : AKState) (muts : List MutationRecord)
    (m : MutationRecord) (n : DomNode)
    (hm : m ∈ muts) (ht : m.type = MutationType.childList)
    (hn : n ∈ m.removedNodes) (he : n.nodeType = NodeType.element) :
    AKAction.destroy n.el.id ∈ (observeDestroy s muts).trace ∧
    alLookup (observeDestroy s muts).registry (lowerStr n.el.id) = none ∧
    (∀ e, alLookup s.registry (lowerStr n.el.id) = some e →
      ∀ c ∈ e.controllers, AKAction.abort c ∈ (observeDestroy s muts).trace) ∧
    (∀ el' nm s₁ i, lowerStr el'.id = lowerStr n.el.id →
      akGet (observeDestroy s muts) el' nm = .ok (s₁, i) →
      i = (observeDestroy s muts).nextInstance) := by
  obtain ⟨l1, l2, hsplit⟩ := List.append_of_mem hm
  obtain ⟨nl1, nl2, hnsplit⟩ := List.append_of_mem hn
  subst hsplit
  have hfold1 : observeDestroy s (l1 ++ m :: l2)
      = List.foldl processRecord (processRecord (List.foldl processRecord s l1) m) l2 := by
    simp [observeDestroy, List.foldl_append]
  have hfold2 : processRecord (List.foldl processRecord s l1) m
      = List.foldl destroyNode
          (destroyNode
            (List.foldl destroyNode (List.foldl processRecord s l1) nl1) n) nl2 := by
    unfold processRecord
    rw [if_pos ht, hnsplit]
    simp [List.foldl_append]
  have hD := destroyNode_element
    (List.foldl destroyNode (List.foldl processRecord s l1) nl1) n he
  -- evolution from the state just after the node was processed to the final state
  have hafter : Teardown
      (destroyNode (List.foldl destroyNode (List.foldl processRecord s l1) nl1) n)
      (observeDestroy s (l1 ++ m :: l2)) := by
    rw [hfold1, hfold2]
    exact teardown_trans (foldl_destroyNode_teardown nl2 _)
      (foldl_processRecord_teardown l2 _)
  -- evolution from the start of the batch to just before the node was processed
  have hbefore : Teardown s
      (List.foldl destroyNode (List.foldl processRecord s l1) nl1) :=
    teardown_trans (foldl_processRecord_teardown l1 s)
      (foldl_destroyNode_teardown nl1 _)
  obtain ⟨⟨tA, htA⟩, hrA, -, -, -⟩ := id hafter
  have hdestroy : AKAction.destroy n.el.id ∈ (observeDestroy s (l1 ++ m :: l2)).trace := by
    rw [htA]
    exact List.mem_append_left _ hD.1
  have hgone : alLookup (observeDestroy s (l1 ++ m :: l2)).registry (lowerStr n.el.id) = none := by
    rcases hrA (lowerStr n.el.id) with h | h
    · exact h
    · rw [h]
      exact hD.2.1
  refine ⟨hdestroy, hgone, ?_, ?_⟩
  · intro e h0 c hc
    obtain ⟨_, _, heB, _, _⟩ := hbefore
    rcases heB (lowerStr n.el.id) e h0 with h1 | h1
    · have := hD.2.2 e h1 c hc
      rw [htA]
      exact List.mem_append_left _ this
    · obtain ⟨⟨tD, htD⟩, _, _, _, _⟩ :=
        teardown_trans (destroyNode_teardown
          (List.foldl destroyNode (List.foldl processRecord s l1) nl1) n) hafter
      rw [htD]
      exact List.mem_append_left _ (h1 c hc)
  · intro el' nm s₁ i hid hok
    have hreg : alLookup (observeDestroy s (l1 ++ m :: l2)).registry (lowerStr el'.id) = none := by
      rw [hid]
      exact hgone
    exact (akGet_fresh _ _ _ _ _ hreg hok).1

/-- Witness for C2: the spec's cleanup-completeness scenario — node `n1`
carries two attached types (instances 0 and 1) and three subscriptions
(controllers 0, 1, 2); after the batch removing it flushes, the `destroy`
dispatch and all three aborts are in the trace, the entry is purged, and a
subsequent resolve constructs afresh. -/
theorem C2_witness :
    (exRec2 ∈ exMuts2 ∧ exRec2.type = MutationType.childList ∧
      exN2 ∈ exRec2.removedNodes ∧ exN2.nodeType = NodeType.element) ∧
    (AKAction.destroy exN2.el.id ∈ (observeDestroy exS2 exMuts2).trace ∧
      alLookup (observeDestroy exS2 exMuts2).registry (lowerStr exN2.el.id) = none ∧
      (∀ e, alLookup exS2.registry (lowerStr exN2.el.id) = some e →
        ∀ c ∈ e.controllers, AKAction.abort c ∈ (observeDestroy exS2 exMuts2).trace) ∧
      (∀ el' nm s₁ i, lowerStr el'.id = lowerStr exN2.el.id →
        akGet (observeDestroy exS2 exMuts2) el' nm = .ok (s₁, i) →
        i = (observeDestroy exS2 exMuts2).nextInstance)) :=
  ⟨⟨by decide, by decide, by decide, by decide⟩,
    C2_removal_cleanup exS2 exMuts2 exRec2 exN2
      (by decide) (by decide) (by decide) (by decide)⟩

/-- A class-resolution error propagates out of `AKObjectManager.get`
unchanged (once the two non-empty-string preconditions hold). -/
theorem akGet_resolve_error (s : AKState) (el : Element) (name : String) (e : AKError)
    (hid : el.id ≠ "") (hn : name ≠ "")
    (hres : resolveCid s el name = .error e) :
    akGet s el name = .error e := by
  unfold akGet
  rw [if_neg hid, if_neg hn, hres]

/-- Claim C3, counterexample — The claim says that when a node's
exclusive-interaction attribute equals the requested name, the type is
resolved against the exclusive-interaction catalog — "the
exclusive-interaction catalog is consulted, not the visual-behavior
catalog" when a node declares the name in both attributes.  On `exS3` /
`exEl3`, the attribute matches and the exclusive-interaction catalog maps
`Foo` to class 1, yet resolution returns class 2, the visual-behavior
catalog's entry: the source uses two successive `if`s, so the
visual-behavior lookup overwrites the exclusive-interaction one. -/
theorem C3_counterexample :
    sameText "Foo" ((exEl3.getAttribute "ak-component-class").getD "") = true ∧
    catFind exS3.compItems "Foo" = some 1 ∧
    matchText "Foo" (listAttribute exEl3 "ak-ui-classes") = true ∧
    catFind exS3.uiItems "Foo" = some 2 ∧
    resolveCid exS3 exEl3 "Foo" = .ok 2 := by
  exact ⟨by decide, by decide, by decide, by decide, by decide⟩

/-- Claim C3, amended — Resolve consults the exclusive-interaction catalog
first when that attribute matches the requested name (failing right there
when the catalog has no entry), and then *also* consults the
visual-behavior catalog when the name appears in the node's token list,
the visual-behavior result overwriting the exclusive-interaction one.
Hence: with only the exclusive attribute matching, the exclusive catalog
decides; with only the token list matching, the visual catalog decides;
when a node declares the same name in both attributes and the exclusive
lookup succeeds, the *visual-behavior* catalog decides. -/
theorem C3_amended (s : AKState) (el : Element) (name : String) :
    (sameText name ((el.getAttribute "ak-component-class").getD "") = true →
      matchText name (listAttribute el "ak-ui-classes") = false →
      resolveCid s el name = catGetNamed "AKComponentRegistry" s.compItems name) ∧
    (sameText name ((el.getAttribute "ak-component-class").getD "") = false →
      matchText name (listAttribute el "ak-ui-classes") = true →
      resolveCid s el name = catGetNamed "AKUiClassesRegistry" s.uiItems name) ∧
    (∀ c, sameText name ((el.getAttribute "ak-component-class").getD "") = true →
      matchText name (listAttribute el "ak-ui-classes") = true →
      catGetNamed "AKComponentRegistry" s.compItems name = .ok c →
      resolveCid s el name = catGetNamed "AKUiClassesRegistry" s.uiItems name) := by
  refine ⟨?_, ?_, ?_⟩
  · intro h1 h2
    simp only [resolveCid, h1, h2, if_true, Bool.false_eq_true, if_false]
    cases hc : catGetNamed "AKComponentRegistry" s.compItems name <;> simp
  · intro h1 h2
    simp only [resolveCid, h1, h2, if_true, Bool.false_eq_true, if_false]
    cases hc : catGetNamed "AKUiClassesRegistry" s.uiItems name <;> simp
  · intro c h1 h2 hc
    simp only [resolveCid, h1, h2, if_true, hc]
    cases hu : catGetNamed "AKUiClassesRegistry" s.uiItems name <;> simp

/-- Witness for the amended C3: on the both-attributes fixture the
exclusive-interaction lookup succeeds (class 1) and resolution nevertheless
follows the visual-behavior catalog, which holds class 2. -/
theorem C3_witness :
    (sameText "Foo" ((exEl3.getAttribute "ak-component-class").getD "") = true ∧
      matchText "Foo" (listAttribute exEl3 "ak-ui-classes") = true ∧
      catGetNamed "AKComponentRegistry" exS3.compItems "Foo" = .ok 1) ∧
    resolveCid exS3 exEl3 "Foo" = catGetNamed "AKUiClassesRegistry" exS3.uiItems "Foo" :=
  ⟨⟨by decide, by decide, by decide⟩,
    (C3_amended exS3 exEl3 "Foo").2.2 1 (by decide) (by decide) (by decide)⟩

/-- Claim C4, counterexample — The claim says that when the matching catalog
has no entry for the requested name, resolve fails with a `TypecastError`
(the `AKInvalidTypecast` named error).  On empty catalogs with
`ak-ui-classes="Foo"`, `resolve(exEl4, "Foo")` instead fails with the
catalog lookup `AssertionFailure` from `AKUiClassesRegistry.get`. -/
theorem C4_counterexample :
    matchText "Foo" (listAttribute exEl4 "ak-ui-classes") = true ∧
    catFind exS4.uiItems "Foo" = none ∧
    akGet exS4 exEl4 "Foo"
      = .error (AKError.err "AssertionFailure" "[AKUiClassesRegistry] Class \"Foo\" not found.") :=
  ⟨by decide, by decide, by decide⟩

/-- Claim C4, amended — When the requested name matches *neither* the
exclusive-interaction attribute nor a visual-behavior token, resolve fails
with the `TypecastError` (`AKInvalidTypecast`) whose message names both the
requested type and the node identity (in particular, a node whose
exclusive-interaction attribute is `Foo` fails `resolve(node, "Bar")` that
way for any `Bar` not declared on the node).  But when an attribute *does*
match and the corresponding catalog has no entry, resolve instead fails
with that catalog's lookup `AssertionFailure` (naming the type only).  The
`fmtRun … = .ok msg` hypotheses pin down the formatted message (they hold
whenever the interpolated values do not themselves contain `%s`). -/
theorem C4_amended (s : AKState) (el : Element) (name msg : String) :
    (el.id ≠ "" → name ≠ "" →
      sameText name ((el.getAttribute "ak-component-class").getD "") = false →
      matchText name (listAttribute el "ak-ui-classes") = false →
      fmtRun "Invalid AKObject class %s for element %s." [name, el.id] = .ok msg →
      akGet s el name = .error (AKError.err "AKInvalidTypecast" msg)) ∧
    (el.id ≠ "" → name ≠ "" →
      sameText name ((el.getAttribute "ak-component-class").getD "") = false →
      matchText name (listAttribute el "ak-ui-classes") = true →
      catFind s.uiItems name = none →
      fmtRun "[AKUiClassesRegistry] Class \"%s\" not found." [name] = .ok msg →
      akGet s el name = .error (AKError.err "AssertionFailure" msg)) ∧
    (el.id ≠ "" → name ≠ "" →
      sameText name ((el.getAttribute "ak-component-class").getD "") = true →
      catFind s.compItems name = none →
      fmtRun "[AKComponentRegistry] Class \"%s\" not found." [name] = .ok msg →
      akGet s el name = .error (AKError.err "AssertionFailure" msg)) := by
  refine ⟨?_, ?_, ?_⟩
  · intro hid hn h1 h2 hfmt
    refine akGet_resolve_error s el name _ hid hn ?_
    simp only [resolveCid, h1, h2, Bool.false_eq_true, if_false, hfmt]
  · intro hid hn h1 h2 hfind hfmt
    refine akGet_resolve_error s el name _ hid hn ?_
    have hs : ("[" ++ "AKUiClassesRegistry" ++ "] Class \"%s\" not found." : String)
        = "[AKUiClassesRegistry] Class \"%s\" not found." := rfl
    simp only [resolveCid, h1, h2, Bool.false_eq_true, if_false, if_true,
      catGetNamed, hs, hfmt, hfind]
  · intro hid hn h1 hfind hfmt
    refine akGet_resolve_error s el name _ hid hn ?_
    have hs : ("[" ++ "AKComponentRegistry" ++ "] Class \"%s\" not found." : String)
        = "[AKComponentRegistry] Class \"%s\" not found." := rfl
    simp only [resolveCid, h1, if_true, catGetNamed, hs, hfmt, hfind]

/-- Witness for the amended C4: the spec's exclusivity scenario — a node
with `ak-component-class="Foo"` and identity `e1`; `resolve(node, "Bar")`
fails with the `AKInvalidTypecast` error naming both `Bar` and `e1`. -/
theorem C4_witness :
    (sameText "Bar" ((exEl4b.getAttribute "ak-component-class").getD "") = false ∧
      matchText "Bar" (listAttribute exEl4b "ak-ui-classes") = false) ∧
    akGet exS4 exEl4b "Bar"
      = .error (AKError.err "AKInvalidTypecast" "Invalid AKObject class Bar for element e1.") :=
  ⟨⟨by decide, by decide⟩,
    (C4_amended exS4 exEl4b "Bar" "Invalid AKObject class Bar for element e1.").1
      (by decide) (by decide) (by decide) (by decide) (by decide)⟩

/-- Claim C5, counterexample — The claim says detach (`AKObjectManager.delete`)
purges the registry entry *but does not itself cancel any cancellation
handle*.  On `exS5` (identity `n1` registered with live controller 5),
`delete` itself aborts controller 5: `AKObjectRegistry.unregister` loops
over the entry's controllers calling `abort()` before deleting the
entry. -/
theorem C5_counterexample :
    exS5.trace = [] ∧
    alLookup exS5.registry "n1" = some ⟨[("Tab", 0)], [5]⟩ ∧
    (akDelete exS5 exEl5).trace = [AKAction.abort 5] ∧
    alLookup (akDelete exS5 exEl5).registry "n1" = none :=
  ⟨by decide, by decide, by decide, by decide⟩

/-- Claim C5, amended — `detach` purges the Node Registry entry for the
identity *and itself cancels every cancellation handle in the entry's
subscription set* (appending the aborts, in order, to the trace); entries
of other identities are untouched.  The Teardown Pipeline performs no
separate cancellation: it only dispatches `destroy` and calls `detach`. -/
theorem C5_amended (s : AKState) (el : Element) :
    alLookup (akDelete s el).registry (lowerStr el.id) = none ∧
    (∀ e, alLookup s.registry (lowerStr el.id) = some e →
      (akDelete s el).trace = s.trace ++ e.controllers.map AKAction.abort) ∧
    (∀ id', id' ≠ lowerStr el.id →
      alLookup (akDelete s el).registry id' = alLookup s.registry id') := by
  unfold akDelete regUnregister
  split
  · next hnone =>
    refine ⟨hnone, ?_, fun id' _ => rfl⟩
    intro e h0
    rw [h0] at hnone
    cases hnone
  · next e he =>
    refine ⟨alLookup_alRemove_self _ _, ?_, ?_⟩
    · intro e' h0
      rw [h0] at he
      cases he
      rfl
    · intro id' hid
      exact alLookup_alRemove_ne _ _ _ hid

/-- Witness for the amended C5: deleting `exEl5` purges the `n1` entry and
itself aborts its controller 5. -/
theorem C5_witness :
    (alLookup exS5.registry (lowerStr exEl5.id) = some ⟨[("Tab", 0)], [5]⟩) ∧
    (alLookup (akDelete exS5 exEl5).registry (lowerStr exEl5.id) = none ∧
      (akDelete exS5 exEl5).trace = exS5.trace ++ [AKAction.abort 5]) :=
  ⟨by decide,
    (C5_amended exS5 exEl5).1,
    (C5_amended exS5 exEl5).2.1 ⟨[("Tab", 0)], [5]⟩ (by decide)⟩

/-- Catalog `contains` on a collection is `false` whenever some listed name is not
an own key of the table, wherever it sits in the list (the scan returns at
the first absent name, so everything after it is irrelevant). -/
theorem catContainsMany_absent (items : List (String × Nat)) (x : String)
    (hx : alLookup items x = none) :
    ∀ pre post : List String, catContainsMany items (pre ++ x :: post) = false := by
  intro pre
  induction pre with
  | nil =>
    intro post
    simp [catContainsMany, hx]
  | cons h t ih =>
    intro post
    by_cases hh : (alLookup items h).isSome <;>
      simp [catContainsMany, hh, ih]

/-- Claim C6, counterexample — The claim says that after `register(name, T)`
the existence queries `find(n)` *and* `contains(n)` report the name present
for every casing `n` of the name.  After `register("Foo", 1)` the entry is
stored under the lowercased key `foo`, and `contains` tests
`Object.hasOwn(#ITEMS, name)` *without* lowercasing: `contains("Foo")` is
`false` even though `find("Foo")` succeeds — already for the registered
casing itself. -/
theorem C6_counterexample :
    catRegister [] [] "Foo" 1 = .ok ([("foo", 1)], [(1, "Foo")]) ∧
    (catFind [("foo", 1)] "Foo").isSome = true ∧
    catContainsOne [("foo", 1)] "Foo" = false :=
  ⟨by decide, by decide, by decide⟩

/-- Claim C6, amended — `find` is case-insensitive: after `register(name,
type)` it reports every casing of the name present; `contains`, however,
checks the exact key, so it reports presence only for the *lowercased*
spelling of a registered name.  Both report absence for names registered in
neither casing (`find` whenever the lowercased key is absent, `contains`
whenever the exact key is absent), and `contains` on a collection returns
`false` as soon as it meets the first absent name, regardless of what
follows. -/
theorem C6_case_queries (items items' : List (String × Nat))
    (cns cns' : List (Nat × String)) (name : String) (cid : Nat)
    (hreg : catRegister items cns name cid = .ok (items', cns')) :
    (∀ n, n ≠ "" → lowerStr n = lowerStr name → (catFind items' n).isSome = true) ∧
    catContainsOne items' (lowerStr name) = true ∧
    (∀ n, alLookup items' (lowerStr n) = none → catFind items' n = none) ∧
    (∀ n, alLookup items' n = none → catContainsOne items' n = false) ∧
    (∀ pre x post, alLookup items' x = none →
      catContainsMany items' (pre ++ x :: post) = false) := by
  unfold catRegister at hreg
  split at hreg
  · cases hreg
  next hname =>
  have hkey : (alLookup items' (lowerStr name)).isSome = true := by
    split at hreg
    · next hfound =>
      cases hreg
      rw [catFind, if_neg hname] at hfound
      exact hfound
    · cases hreg
      rw [alLookup_alSet_self]
      rfl
  refine ⟨?_, ?_, ?_, ?_, ?_⟩
  · intro n hn hlow
    rw [catFind, if_neg hn, hlow]
    exact hkey
  · exact hkey
  · intro n hnone
    rw [catFind]
    split
    · rfl
    · exact hnone
  · intro n hnone
    rw [catContainsOne, hnone]
    rfl
  · intro pre x post hnone
    exact catContainsMany_absent items' x hnone pre post

/-- Witness for the amended C6: after `register("Foo", 1)`, `find` sees the
casing `FOO`, `contains` sees the lowercased key, and a collection query
short-circuits to `false` at the absent name `Bar` whatever follows it. -/
theorem C6_witness :
    catRegister [] [] "Foo" 1 = .ok ([("foo", 1)], [(1, "Foo")]) ∧
    (catFind [("foo", 1)] "FOO").isSome = true ∧
    catContainsOne [("foo", 1)] (lowerStr "Foo") = true ∧
    catContainsMany [("foo", 1)] (["foo"] ++ "Bar" :: ["x"]) = false :=
  ⟨by decide,
    (C6_case_queries [] [("foo", 1)] [] [(1, "Foo")] "Foo" 1 (by decide)).1 "FOO"
      (by decide) (by decide),
    (C6_case_queries [] [("foo", 1)] [] [(1, "Foo")] "Foo" 1 (by decide)).2.1,
    (C6_case_queries [] [("foo", 1)] [] [(1, "Foo")] "Foo" 1 (by decide)).2.2.2.2
      ["foo"] "Bar" ["x"] (by decide)⟩

/-- Claim C7 — Catalog registration is idempotent with
first-registration-wins semantics: after `register(name, T1)` (with `name`
fresh) followed by `register(name2, T2)` where `name2` equals `name`
case-insensitively, the catalog and the class-name table are exactly as
after the first registration (the second call is a silent no-op),
`find(name)` still yields `T1`, the canonical name attached to `T1` is
`name` (from the first registration), and nothing was attached to `T2`
(its `className` binding is whatever it was before). -/
theorem C7_first_registration_wins (items items1 items2 : List (String × Nat))
    (cns cns1 cns2 : List (Nat × String)) (name name2 : String) (c1 c2 : Nat)
    (hfresh : catFind items name = none)
    (h1 : catRegister items cns name c1 = .ok (items1, cns1))
    (hlow : lowerStr name2 = lowerStr name)
    (h2 : catRegister items1 cns1 name2 c2 = .ok (items2, cns2)) :
    items2 = items1 ∧ cns2 = cns1 ∧
    catFind items2 name = some c1 ∧
    alLookup cns2 c1 = some name ∧
    (c2 ≠ c1 → alLookup cns2 c2 = alLookup cns c2) := by
  unfold catRegister at h1
  split at h1
  · cases h1
  next hname =>
  rw [hfresh] at h1
  simp only [Option.isSome_none, Bool.false_eq_true, if_false] at h1
  cases h1
  unfold catRegister at h2
  split at h2
  · cases h2
  next hname2 =>
  have hfound : (catFind (alSet items (lowerStr name) c1) name2).isSome = true := by
    rw [catFind, if_neg hname2, hlow, alLookup_alSet_self]
    rfl
  rw [hfound] at h2
  simp only [if_true] at h2
  cases h2
  refine ⟨rfl, rfl, ?_, alLookup_alSet_self _ _ _, ?_⟩
  · rw [catFind, if_neg hname, alLookup_alSet_self]
  · intro hne
    exact alLookup_alSet_ne _ _ _ _ hne

/-- Witness for C7: `register("Foo", 1)` then `register("FOO", 2)` leaves
`find("Foo") = 1`, class 1 canonically named `Foo`, and class 2 untouched. -/
theorem C7_witness :
    (catFind ([] : List (String × Nat)) "Foo" = none ∧
      catRegister [] [] "Foo" 1 = .ok ([("foo", 1)], [(1, "Foo")]) ∧
      catRegister [("foo", 1)] [(1, "Foo")] "FOO" 2 = .ok ([("foo", 1)], [(1, "Foo")])) ∧
    (catFind [("foo", 1)] "Foo" = some 1 ∧
      alLookup [(1, "Foo")] 1 = some "Foo" ∧
      ((2 : Nat) ≠ 1 → alLookup [(1, "Foo")] 2 = alLookup ([] : List (Nat × String)) 2)) :=
  ⟨⟨by decide, by decide, by decide⟩,
    (C7_first_registration_wins [] [("foo", 1)] [("foo", 1)] [] [(1, "Foo")] [(1, "Foo")]
      "Foo" "FOO" 1 2 (by decide) (by decide) (by decide) (by decide)).2.2⟩

/-- Claim C8, counterexample — The claim says that for every registered name
`get` returns the registered descriptor.  Register the (legal, non-empty)
name `a%sb`: `find` returns the descriptor, but `get` throws — `assertFmt`
formats its message *before* testing the condition, the substituted name
re-introduces a `%s`, and `fmt` runs out of values. -/
theorem C8_counterexample :
    catRegister [] [] "a%sb" 7 = .ok ([("a%sb", 7)], [(7, "a%sb")]) ∧
    catFind [("a%sb", 7)] "a%sb" = some 7 ∧
    catGetNamed "AKUiClassesRegistry" [("a%sb", 7)] "a%sb"
      = .error (AKError.err "AssertionFailure" "Not enough values to format string.") :=
  ⟨by decide, by decide, by decide⟩

/-- Claim C8, amended — For every catalog and every name whose not-found
message formats cleanly (the name contains no `%s`): `get` on an absent
name fails with the catalog-lookup failure — the `AssertionFailure` whose
message `[<registry>] Class "<name>" not found.` names the requested type —
while `find` never fails (it is total, returning the `null` sentinel
`none` on absence); on a registered name both return the registered
descriptor.  (A registered name containing `%s` instead makes `get` throw
the formatter's own `Not enough values` assertion.) -/
theorem C8_get_vs_find (rn : String) (items : List (String × Nat)) (name m : String)
    (hfmt : fmtRun ("[" ++ rn ++ "] Class \"%s\" not found.") [name] = .ok m) :
    (catFind items name = none →
      catGetNamed rn items name = .error (AKError.err "AssertionFailure" m)) ∧
    (∀ c, catFind items name = some c → catGetNamed rn items name = .ok c) := by
  constructor
  · intro hnone
    rw [catGetNamed, hfmt, hnone]
  · intro c hc
    rw [catGetNamed, hfmt, hc]

/-- Witness for the amended C8: with `foo ↦ 1` registered, `get("Foo")`
returns 1, while on the empty catalog it fails with the not-found
assertion naming `Foo`. -/
theorem C8_witness :
    catGetNamed "AKUiClassesRegistry" [("foo", 1)] "Foo" = .ok 1 ∧
    catGetNamed "AKUiClassesRegistry" [] "Foo"
      = .error (AKError.err "AssertionFailure" "[AKUiClassesRegistry] Class \"Foo\" not found.") ∧
    catFind ([] : List (String × Nat)) "Foo" = none :=
  ⟨(C8_get_vs_find "AKUiClassesRegistry" [("foo", 1)] "Foo"
      "[AKUiClassesRegistry] Class \"Foo\" not found." (by decide)).2 1 (by decide),
    (C8_get_vs_find "AKUiClassesRegistry" [] "Foo"
      "[AKUiClassesRegistry] Class \"Foo\" not found." (by decide)).1 (by decide),
    by decide⟩

/-- Claim C9 — For every instance, the parent query walks the live ancestor
chain outward starting from the node's immediate parent (`anc` lists the
ancestors in that order), and returns the resolved (memoized, via
`resolve`) instance of the first ancestor whose declared bindings resolve
to a registered type of the querying family (`AKUiElement.is` succeeds),
skipping ancestors that are untyped under that family; reaching the tree
root with no match yields no parent (`null`). -/
theorem C9_parent_resolution (s : AKState) :
    (∀ anc : List Element, (∀ b ∈ anc, akUiIs s b = none) →
      akUiParent s anc = .ok (s, none)) ∧
    (∀ (pre : List Element) (a : Element) (rest : List Element) (cid : Nat)
        (s' : AKState) (i : Nat),
      (∀ b ∈ pre, akUiIs s b = none) →
      akUiIs s a = some cid →
      akGet s a ((alLookup s.classNames cid).getD "") = .ok (s', i) →
      akUiParent s (pre ++ a :: rest) = .ok (s', some i)) := by
  constructor
  · intro anc
    induction anc with
    | nil => intro _; rfl
    | cons b t ih =>
      intro hall
      rw [akUiParent, hall b (List.mem_cons_self b t)]
      exact ih fun x hx => hall x (List.mem_cons_of_mem b hx)
  · intro pre a rest cid s' i hpre ha hget
    induction pre with
    | nil =>
      rw [List.nil_append, akUiParent, ha]
      simp only [hget]
    | cons b t ih =>
      rw [List.cons_append, akUiParent, hpre b (List.mem_cons_self b t)]
      exact ih fun x hx => hpre x (List.mem_cons_of_mem b hx)

/-- Witness for C9: the spec's scenario — A (typed `Panel`, with its
already-memoized instance 0) contains untyped B contains C; C's parent
query over the ancestor chain `[B, A]` skips B and returns A's memoized
instance 0 without any new construction (the state is unchanged). -/
theorem C9_witness :
    ((∀ b ∈ [exElB], akUiIs exS9 b = none) ∧
      akUiIs exS9 exElA = some 1 ∧
      akGet exS9 exElA ((alLookup exS9.classNames 1).getD "") = .ok (exS9, 0)) ∧
    akUiParent exS9 ([exElB] ++ exElA :: []) = .ok (exS9, some 0) :=
  ⟨⟨by decide, by decide, by decide⟩,
    (C9_parent_resolution exS9).2 [exElB] exElA [] 1 exS9 0
      (by decide) (by decide) (by decide)⟩

/-- Claim C10 — If one class is registered in the same catalog under two
different names (`register(name1, T)` then `register(name2, T)` with the
names not case-insensitively equal), the second registration overwrites
T's canonical `className` with `name2` while both names keep resolving to
T; and thereafter, for any node on which both names resolve to T, resolve
with `name1` and resolve with `name2` return the identical instance,
because the instance registry keys entries by the class's current
canonical `className` rather than by the requested name. -/
theorem C10_alias_shared_instance :
    (∀ (items items1 items2 : List (String × Nat)) (cns cns1 cns2 : List (Nat × String))
        (n1 n2 : String) (c : Nat),
      catFind items n1 = none →
      catRegister items cns n1 c = .ok (items1, cns1) →
      catFind items1 n2 = none →
      catRegister items1 cns1 n2 c = .ok (items2, cns2) →
      alLookup cns2 c = some n2 ∧
      catFind items2 n1 = some c ∧ catFind items2 n2 = some c) ∧
    (∀ (s s1 : AKState) (el : Element) (n1 n2 : String) (c i : Nat),
      n2 ≠ "" →
      resolveCid s el n1 = .ok c →
      resolveCid s el n2 = .ok c →
      akGet s el n1 = .ok (s1, i) →
      akGet s1 el n2 = .ok (s1, i)) := by
  constructor
  · intro items items1 items2 cns cns1 cns2 n1 n2 c hfresh1 h1 hfresh2 h2
    unfold catRegister at h1
    split at h1
    · cases h1
    next hn1 =>
    rw [hfresh1] at h1
    simp only [Option.isSome_none, Bool.false_eq_true, if_false] at h1
    cases h1
    unfold catRegister at h2
    split at h2
    · cases h2
    next hn2 =>
    rw [hfresh2] at h2
    simp only [Option.isSome_none, Bool.false_eq_true, if_false] at h2
    cases h2
    have hne : lowerStr n1 ≠ lowerStr n2 := by
      intro heq
      rw [catFind, if_neg hn2, ← heq, alLookup_alSet_self] at hfresh2
      cases hfresh2
    refine ⟨alLookup_alSet_self _ _ _, ?_, ?_⟩
    · rw [catFind, if_neg hn1, alLookup_alSet_ne _ _ _ _ hne, alLookup_alSet_self]
    · rw [catFind, if_neg hn2, alLookup_alSet_self]
  · intro s s1 el n1 n2 c i hn2 hres1 hres2 h
    obtain ⟨⟨c1, c2, c3, c4, c5⟩, hid, _, cid, hres1', hmemo⟩ := akGet_ok_inv s s1 el n1 i h
    have hcid : cid = c := by
      rw [hres1] at hres1'
      exact (Except.ok.inj hres1').symm
    subst hcid
    have hres2' : resolveCid s1 el n2 = .ok cid :=
      (resolveCid_congr s s1 el n2 c1 c2).trans hres2
    refine akGet_hit s1 el n2 cid i hid hn2 hres2' ?_
    rw [c3]
    exact hmemo

/-- Witness for C10: class 1 is registered as `Foo` then as `Bar`
(canonical name now `Bar`); on `exEl10` (which declares both names)
resolving `Foo` constructs instance 0 — keyed under `Bar` — and resolving
`Bar` afterwards returns the identical instance 0. -/
theorem C10_witness :
    (catRegister [] [] "Foo" 1 = .ok ([("foo", 1)], [(1, "Foo")]) ∧
      catRegister [("foo", 1)] [(1, "Foo")] "Bar" 1
        = .ok ([("foo", 1), ("bar", 1)], [(1, "Bar")]) ∧
      alLookup [(1, "Bar")] 1 = some "Bar") ∧
    (akGet exS10 exEl10 "Foo" = .ok (exS10r, 0) ∧
      akGet exS10r exEl10 "Bar" = .ok (exS10r, 0)) :=
  ⟨⟨by decide, by decide, by decide⟩,
    by decide,
    C10_alias_shared_instance.2 exS10 exS10r exEl10 "Foo" "Bar" 1 0
      (by decide) (by decide) (by decide) (by decide)⟩

